import Mathlib

/-!
Verification development for the Shared Discovery Store
(`examples/parallelized-ai-agents/scripts/shared_memory.py`).

Modelling conventions:
* A Python `dict` (which is insertion-ordered with unique keys) is embedded as
  an insertion-ordered association list `List (String × α)`; assignment
  `m[k] = v` is `setIn` (overwrite in place, else append), `m.setdefault k v`
  is `setdefault`, and `m.get k` / `m[k]` is `alookup`.
* The arbitrary JSON-compatible discovery value (`Any` in Python) is a type
  parameter `V`; the store never inspects values, it only moves them around.
* Python floats (the `confidence` field, default `1.0`) are carried as `Rat`;
  the store never computes with them.
* Each call to `datetime.utcnow().isoformat()` / `time.time()` reads a clock;
  in the model the timestamps are supplied by the caller as explicit
  arguments.
* The on-disk world is a `Disk`: the live document at `memory_path` plus the
  checkpoint files the store has written.  An operation that does not write
  the live file leaves the `live` component untouched.
-/

namespace AgentMemory

/-- `AgentDiscovery` dataclass: a discovery or learning from an agent.
After `__post_init__`, `tags` is never `None`, so it is a plain list here. -/
structure AgentDiscovery (V : Type) where
  agent_id : String
  key : String
  value : V
  timestamp : String
  confidence : Rat
  tags : List String
  deriving DecidableEq

/-- One entry of the `conflicts` list built by `record_discovery`:
`{key, agents: [new, existing], values: [new, existing], timestamp}`. -/
structure Conflict (V : Type) where
  key : String
  agents : List String
  values : List V
  timestamp : String
  deriving DecidableEq

/-- One entry of the `decisions` mapping built by `record_decision`:
`{decision, decided_by, timestamp}`. -/
structure Decision (V : Type) where
  decision : V
  decided_by : String
  timestamp : String
  deriving DecidableEq

/-- The `metadata` object of the store document.  `created` and `version` are
written by `_initialize_memory`; the remaining fields appear only once the
corresponding operation has run, hence `Option`. -/
structure Metadata where
  created : String
  version : String
  last_updated : Option String
  total_discoveries : Option Nat
  checkpoint_name : Option String
  checkpoint_time : Option String
  deriving DecidableEq

/-- The root persisted JSON document:
`{discoveries, conflicts, decisions, metadata}` where `discoveries` maps a
worker id to that worker's key → discovery mapping. -/
structure Document (V : Type) where
  discoveries : List (String × List (String × AgentDiscovery V))
  conflicts : List (Conflict V)
  decisions : List (String × Decision V)
  metadata : Metadata
  deriving DecidableEq

/-- Python dict read `m.get k` / `k in m`: first (only) binding of `k`. -/
def alookup {α : Type} : List (String × α) → String → Option α
  | [], _ => none
  | (k', v) :: rest, k => if k' = k then some v else alookup rest k

/-- Python dict assignment `m[k] = v`: overwrite the existing binding in
place, otherwise append a fresh binding (insertion order). -/
def setIn {α : Type} : List (String × α) → String → α → List (String × α)
  | [], k, v => [(k, v)]
  | (k', v') :: rest, k, v =>
      if k' = k then (k, v) :: rest else (k', v') :: setIn rest k v

/-- Python `m.setdefault(k, v)`: insert `(k, v)` only when `k` is absent. -/
def setdefault {α : Type} (m : List (String × α)) (k : String) (v : α) :
    List (String × α) :=
  match alookup m k with
  | some _ => m
  | none => m ++ [(k, v)]

/-- The fresh empty document `_initialize_memory` writes:
empty collections plus `created` and `version` metadata. -/
def initial_memory (V : Type) (created : String) : Document V :=
  { discoveries := []
  , conflicts := []
  , decisions := []
  , metadata :=
      { created := created
      , version := "1.0"
      , last_updated := none
      , total_discoveries := none
      , checkpoint_name := none
      , checkpoint_time := none } }

/-- `_initialize_memory`: if no document exists at the path, write a fresh
one; an existing document is left untouched.  `existing` is the document
found on disk (`none` when the path does not exist). -/
def init_memory (V : Type) (existing : Option (Document V)) (created : String) :
    Document V :=
  match existing with
  | some doc => doc
  | none => initial_memory V created

/-- The conflict entries one `record_discovery` call appends: one per other
worker whose namespace already contains `d.key` (the loop over
`memory["discoveries"].items()` guarded by `other_agent != discovery.agent_id`
and `discovery.key in discoveries`).  Note: no value comparison occurs. -/
def conflictsFor {V : Type} (discs : List (String × List (String × AgentDiscovery V)))
    (d : AgentDiscovery V) (now : String) : List (Conflict V) :=
  discs.filterMap fun p =>
    if p.1 = d.agent_id then none
    else
      match alookup p.2 d.key with
      | some existing =>
          some { key := d.key
               , agents := [d.agent_id, p.1]
               , values := [d.value, existing.value]
               , timestamp := now }
      | none => none

/-- `sum(len(discoveries) for discoveries in memory["discoveries"].values())`. -/
def sum_discovery_counts {V : Type}
    (discs : List (String × List (String × AgentDiscovery V))) : Nat :=
  (discs.map fun p => p.2.length).sum

/-- `record_discovery`: under the exclusive lock, load the document, append a
conflict entry for every other worker already holding the key, store the
discovery into the calling worker's namespace (created on demand by
`setdefault`), restamp `last_updated`, recompute `total_discoveries`, write
back.  Returns `not conflict_found` paired with the document written back. -/
def record_discovery {V : Type} (doc : Document V) (d : AgentDiscovery V)
    (now : String) : Bool × Document V :=
  let discs0 := setdefault doc.discoveries d.agent_id []
  let newConf := conflictsFor discs0 d now
  let inner := (alookup discs0 d.agent_id).getD []
  let discs1 := setIn discs0 d.agent_id (setIn inner d.key d)
  ( newConf.isEmpty
  , { doc with
        discoveries := discs1
      , conflicts := doc.conflicts ++ newConf
      , metadata :=
          { doc.metadata with
              last_updated := some now
            , total_discoveries := some (sum_discovery_counts discs1) } } )

/-- `get_shared_knowledge(agent_id=None)`: with a truthy `agent_id` (a
non-empty string) return that worker's mapping (empty if absent); with `None`
or `""` (both falsy in Python) return the whole document. -/
def get_shared_knowledge {V : Type} (doc : Document V) (agent_id : Option String) :
    Document V ⊕ List (String × AgentDiscovery V) :=
  match agent_id with
  | none => Sum.inl doc
  | some a => if a = "" then Sum.inl doc else Sum.inr ((alookup doc.discoveries a).getD [])

/-- `get_conflicts`: the stored conflict log in creation order. -/
def get_conflicts {V : Type} (doc : Document V) : List (Conflict V) :=
  doc.conflicts

/-- `record_decision`: set/overwrite `decisions[key]`; nothing else in the
document is touched (no conflict check, no metadata restamp). -/
def record_decision {V : Type} (doc : Document V) (key : String) (decision : V)
    (decided_by : String) (now : String) : Document V :=
  { doc with
      decisions := setIn doc.decisions key
        { decision := decision, decided_by := decided_by, timestamp := now } }

/-- Python `max(iterable, default=d)` on strings: the lexicographic maximum,
or the default when the iterable is empty. -/
def py_max_default (l : List String) (d : String) : String :=
  match l with
  | [] => d
  | x :: xs => xs.foldl (fun a b => if a < b then b else a) x

/-- Per-worker entry of the summary: `{discovery_count, last_activity}`. -/
structure AgentStat where
  discovery_count : Nat
  last_activity : String
  deriving DecidableEq

/-- Result shape of `get_agent_summary`. -/
structure Summary where
  total_agents : Nat
  total_discoveries : Nat
  total_conflicts : Nat
  total_decisions : Nat
  agents : List (String × AgentStat)
  deriving DecidableEq

/-- `get_agent_summary`: counts plus per-worker activity;
`total_discoveries` is read from metadata with default `0`, `last_activity`
is `max(timestamps, default="Never")`. -/
def get_agent_summary {V : Type} (doc : Document V) : Summary :=
  { total_agents := doc.discoveries.length
  , total_discoveries := doc.metadata.total_discoveries.getD 0
  , total_conflicts := doc.conflicts.length
  , total_decisions := doc.decisions.length
  , agents := doc.discoveries.map fun p =>
      ( p.1
      , { discovery_count := p.2.length
        , last_activity := py_max_default (p.2.map fun q => q.2.timestamp) "Never" } ) }

/-- The in-memory copy `checkpoint` stamps before writing the checkpoint
file: the loaded document with `checkpoint_name`/`checkpoint_time` set. -/
def ckpt_stamp {V : Type} (doc : Document V) (name now : String) : Document V :=
  { doc with
      metadata :=
        { doc.metadata with
            checkpoint_name := some name
          , checkpoint_time := some now } }

/-- The on-disk world: the live document at `memory_path` plus the checkpoint
files (path, content) written so far. -/
structure Disk (V : Type) where
  live : Document V
  files : List (String × Document V)
  deriving DecidableEq

/-- `checkpoint(name)`: under a shared lock, read the live document, stamp
the in-memory copy, write it to `checkpoint_<name>_<unix-time>.json`, return
that path.  The live file is never written. -/
def checkpoint {V : Type} (disk : Disk V) (name now : String) (unix_time : Nat) :
    String × Disk V :=
  let path := "checkpoint_" ++ name ++ "_" ++ toString unix_time ++ ".json"
  let stamped := ckpt_stamp disk.live name now
  (path, { live := disk.live, files := disk.files ++ [(path, stamped)] })

/-- One mutating call against the store (the operations that rewrite the live
document). -/
inductive Op (V : Type) where
  | disc (d : AgentDiscovery V) (now : String)
  | dec (key : String) (payload : V) (decided_by : String) (now : String)

/-- Apply one mutating call to the live document. -/
def applyOp {V : Type} (doc : Document V) : Op V → Document V
  | .disc d now => (record_discovery doc d now).2
  | .dec k p b now => record_decision doc k p b now

/-- Apply a sequence of mutating calls in order. -/
def run {V : Type} (doc : Document V) (ops : List (Op V)) : Document V :=
  ops.foldl applyOp doc

/-- Apply a sequence of `record_discovery` calls, collecting each call's
boolean result. -/
def runDiscoveries {V : Type} (doc : Document V)
    (calls : List (AgentDiscovery V × String)) : List Bool × Document V :=
  match calls with
  | [] => ([], doc)
  | c :: rest =>
      let r := record_discovery doc c.1 c.2
      let r' := runDiscoveries r.2 rest
      (r.1 :: r'.1, r'.2)

/-- The keys passed to `record_decision` within a sequence of calls. -/
def decisionKeys {V : Type} (ops : List (Op V)) : List String :=
  ops.filterMap fun op =>
    match op with
    | .disc _ _ => none
    | .dec k _ _ _ => some k

/-! ### Association-list lemmas -/

theorem alookup_setIn_self {α : Type} (m : List (String × α)) (k : String) (v : α) :
    alookup (setIn m k v) k = some v := by
  induction m with
  | nil => simp [setIn, alookup]
  | cons p rest ih =>
      obtain ⟨k', v'⟩ := p
      by_cases h : k' = k
      · simp [setIn, h, alookup]
      · simp [setIn, h, alookup, ih]

theorem alookup_setIn_ne {α : Type} (m : List (String × α)) (k k' : String) (v : α)
    (h : k' ≠ k) : alookup (setIn m k v) k' = alookup m k' := by
  induction m with
  | nil => simp [setIn, alookup, Ne.symm h]
  | cons p rest ih =>
      obtain ⟨a, b⟩ := p
      by_cases ha : a = k
      · subst ha
        simp [setIn, alookup, Ne.symm h]
      · simp only [setIn, if_neg ha, alookup]
        by_cases hb : a = k'
        · simp [hb]
        · simp [hb, ih]

theorem alookup_append {α : Type} (m m' : List (String × α)) (k : String) :
    alookup (m ++ m') k =
      match alookup m k with
      | some v => some v
      | none => alookup m' k := by
  induction m with
  | nil => simp [alookup]
  | cons p rest ih =>
      obtain ⟨a, b⟩ := p
      by_cases ha : a = k
      · simp [alookup, ha]
      · simp [alookup, ha, ih]

theorem alookup_setdefault_ne {α : Type} (m : List (String × α)) (k k' : String)
    (v : α) (h : k' ≠ k) : alookup (setdefault m k v) k' = alookup m k' := by
  unfold setdefault
  cases hm : alookup m k with
  | some w => rfl
  | none =>
      rw [alookup_append]
      cases hm' : alookup m k' with
      | some w => rfl
      | none => simp [alookup, Ne.symm h]

theorem alookup_setdefault_self {α : Type} (m : List (String × α)) (k : String)
    (v : α) : alookup (setdefault m k v) k = some ((alookup m k).getD v) := by
  unfold setdefault
  cases hm : alookup m k with
  | some w => simp [hm]
  | none =>
      rw [alookup_append, hm]
      simp [alookup]

theorem mem_setIn {α : Type} (m : List (String × α)) (k : String) (v : α)
    (p : String × α) (hp : p ∈ setIn m k v) : p ∈ m ∨ p = (k, v) := by
  induction m with
  | nil => simp [setIn] at hp; simp [hp]
  | cons q rest ih =>
      obtain ⟨a, b⟩ := q
      by_cases ha : a = k
      · simp only [setIn, if_pos ha] at hp
        rcases List.mem_cons.mp hp with h | h
        · right; exact h
        · left; exact List.mem_cons_of_mem _ h
      · simp only [setIn, if_neg ha] at hp
        rcases List.mem_cons.mp hp with h | h
        · left; exact h ▸ List.mem_cons_self _ _
        · rcases ih h with h' | h'
          · left; exact List.mem_cons_of_mem _ h'
          · right; exact h'

theorem alookup_mem {α : Type} (m : List (String × α)) (k : String) (v : α)
    (h : alookup m k = some v) : (k, v) ∈ m := by
  induction m with
  | nil => simp [alookup] at h
  | cons q rest ih =>
      obtain ⟨a, b⟩ := q
      by_cases ha : a = k
      · subst ha
        simp [alookup] at h
        simp [h]
      · simp [alookup, ha] at h
        exact List.mem_cons_of_mem _ (ih h)

theorem keys_setIn {α : Type} (m : List (String × α)) (k : String) (v : α) :
    (setIn m k v).map Prod.fst =
      match alookup m k with
      | some _ => m.map Prod.fst
      | none => m.map Prod.fst ++ [k] := by
  induction m with
  | nil => simp [setIn, alookup]
  | cons q rest ih =>
      obtain ⟨a, b⟩ := q
      by_cases ha : a = k
      · subst ha
        simp [setIn, alookup]
      · simp only [setIn, if_neg ha, alookup, List.map_cons]
        rw [ih]
        cases alookup rest k with
        | some w => simp [ha]
        | none => simp [ha]

theorem alookup_eq_none {α : Type} (m : List (String × α)) (k : String) :
    alookup m k = none ↔ k ∉ m.map Prod.fst := by
  induction m with
  | nil => simp [alookup]
  | cons q rest ih =>
      obtain ⟨a, b⟩ := q
      by_cases ha : a = k
      · subst ha
        simp [alookup]
      · simp [alookup, ha, ih, Ne.symm ha, eq_comm]

theorem length_setIn {α : Type} (m : List (String × α)) (k : String) (v : α) :
    (setIn m k v).length =
      match alookup m k with
      | some _ => m.length
      | none => m.length + 1 := by
  induction m with
  | nil => simp [setIn, alookup]
  | cons q rest ih =>
      obtain ⟨a, b⟩ := q
      by_cases ha : a = k
      · subst ha
        simp [setIn, alookup]
      · simp only [setIn, if_neg ha, alookup, List.length_cons, ih]
        cases alookup rest k <;> simp [ha]

theorem nodup_keys_setIn {α : Type} (m : List (String × α)) (k : String) (v : α)
    (h : (m.map Prod.fst).Nodup) : ((setIn m k v).map Prod.fst).Nodup := by
  rw [keys_setIn]
  cases hm : alookup m k with
  | some w => exact h
  | none =>
      have hk : k ∉ m.map Prod.fst := (alookup_eq_none m k).mp hm
      rw [List.nodup_append]
      refine ⟨h, List.nodup_singleton k, ?_⟩
      intro a ha hak
      rw [List.mem_singleton] at hak
      exact hk (hak ▸ ha)

theorem mem_setdefault {α : Type} (m : List (String × α)) (k : String) (v : α)
    (p : String × α) (hp : p ∈ setdefault m k v) : p ∈ m ∨ p = (k, v) := by
  unfold setdefault at hp
  cases h : alookup m k with
  | some w => rw [h] at hp; exact Or.inl hp
  | none =>
      rw [h] at hp
      rcases List.mem_append.mp hp with h' | h'
      · exact Or.inl h'
      · exact Or.inr (List.mem_singleton.mp h')

/-! ### Lemmas about the conflict scan of `record_discovery` -/

theorem conflictsFor_setdefault_own {V : Type}
    (discs : List (String × List (String × AgentDiscovery V)))
    (d : AgentDiscovery V) (now : String) (x : List (String × AgentDiscovery V)) :
    conflictsFor (setdefault discs d.agent_id x) d now = conflictsFor discs d now := by
  unfold setdefault
  cases h : alookup discs d.agent_id with
  | some w => rfl
  | none =>
      unfold conflictsFor
      rw [List.filterMap_append]
      simp

theorem conflictsFor_eq_nil_iff {V : Type}
    (discs : List (String × List (String × AgentDiscovery V)))
    (d : AgentDiscovery V) (now : String) :
    conflictsFor discs d now = [] ↔
      ∀ p ∈ discs, p.1 ≠ d.agent_id → alookup p.2 d.key = none := by
  unfold conflictsFor
  rw [List.filterMap_eq_nil_iff]
  constructor
  · intro h p hp hne
    have := h p hp
    rw [if_neg hne] at this
    cases hl : alookup p.2 d.key with
    | none => rfl
    | some ex => rw [hl] at this; simp at this
  · intro h p hp
    by_cases hne : p.1 = d.agent_id
    · rw [if_pos hne]
    · rw [if_neg hne, h p hp hne]

theorem mem_conflictsFor {V : Type}
    (discs : List (String × List (String × AgentDiscovery V)))
    (d : AgentDiscovery V) (now : String) (c : Conflict V) :
    c ∈ conflictsFor discs d now ↔
      ∃ p ∈ discs, p.1 ≠ d.agent_id ∧ ∃ ex, alookup p.2 d.key = some ex ∧
        c = { key := d.key, agents := [d.agent_id, p.1]
            , values := [d.value, ex.value], timestamp := now } := by
  unfold conflictsFor
  rw [List.mem_filterMap]
  constructor
  · rintro ⟨p, hp, hf⟩
    by_cases hne : p.1 = d.agent_id
    · rw [if_pos hne] at hf; cases hf
    · rw [if_neg hne] at hf
      cases hl : alookup p.2 d.key with
      | none => rw [hl] at hf; cases hf
      | some ex =>
          rw [hl] at hf
          exact ⟨p, hp, hne, ex, hl, (Option.some.inj hf).symm⟩
  · rintro ⟨p, hp, hne, ex, hl, hc⟩
    refine ⟨p, hp, ?_⟩
    rw [if_neg hne, hl, hc]

theorem length_conflictsFor {V : Type}
    (discs : List (String × List (String × AgentDiscovery V)))
    (d : AgentDiscovery V) (now : String) :
    (conflictsFor discs d now).length =
      (discs.filter fun p =>
        !(decide (p.1 = d.agent_id)) && (alookup p.2 d.key).isSome).length := by
  induction discs with
  | nil => rfl
  | cons p rest ih =>
      unfold conflictsFor
      rw [List.filterMap_cons]
      by_cases hne : p.1 = d.agent_id
      · rw [if_pos hne]
        unfold conflictsFor at ih
        rw [ih, List.filter_cons]
        simp [hne]
      · rw [if_neg hne]
        cases hl : alookup p.2 d.key with
        | none =>
            unfold conflictsFor at ih
            rw [ih, List.filter_cons]
            simp [hne, hl]
        | some ex =>
            unfold conflictsFor at ih
            rw [List.filter_cons]
            simp only [hne, hl, decide_False, Bool.not_false, Option.isSome_some,
              Bool.and_self, decide_True, List.length_cons, ih]
            simp [hne]

/-! ### Unfolding lemmas for `record_discovery` -/

theorem record_discovery_fst {V : Type} (doc : Document V) (d : AgentDiscovery V)
    (now : String) :
    (record_discovery doc d now).1 = (conflictsFor doc.discoveries d now).isEmpty := by
  show (conflictsFor (setdefault doc.discoveries d.agent_id []) d now).isEmpty = _
  rw [conflictsFor_setdefault_own]

theorem record_discovery_conflicts {V : Type} (doc : Document V)
    (d : AgentDiscovery V) (now : String) :
    ((record_discovery doc d now).2).conflicts =
      doc.conflicts ++ conflictsFor doc.discoveries d now := by
  show doc.conflicts ++ conflictsFor (setdefault doc.discoveries d.agent_id []) d now = _
  rw [conflictsFor_setdefault_own]

theorem record_discovery_discoveries {V : Type} (doc : Document V)
    (d : AgentDiscovery V) (now : String) :
    ((record_discovery doc d now).2).discoveries =
      setIn (setdefault doc.discoveries d.agent_id []) d.agent_id
        (setIn ((alookup doc.discoveries d.agent_id).getD []) d.key d) := by
  show setIn (setdefault doc.discoveries d.agent_id []) d.agent_id
        (setIn ((alookup (setdefault doc.discoveries d.agent_id []) d.agent_id).getD [])
          d.key d) = _
  rw [alookup_setdefault_self]
  simp

theorem record_discovery_decisions {V : Type} (doc : Document V)
    (d : AgentDiscovery V) (now : String) :
    ((record_discovery doc d now).2).decisions = doc.decisions := rfl

theorem record_discovery_total {V : Type} (doc : Document V) (d : AgentDiscovery V)
    (now : String) :
    ((record_discovery doc d now).2).metadata.total_discoveries =
      some (sum_discovery_counts ((record_discovery doc d now).2).discoveries) := rfl

theorem record_discovery_ckpt_fields {V : Type} (doc : Document V)
    (d : AgentDiscovery V) (now : String) :
    ((record_discovery doc d now).2).metadata.checkpoint_name =
        doc.metadata.checkpoint_name ∧
      ((record_discovery doc d now).2).metadata.checkpoint_time =
        doc.metadata.checkpoint_time := ⟨rfl, rfl⟩

/-! ### Two-level lookup and key-absence across all namespaces -/

/-- `memory["discoveries"][w][k]`, when both levels are present. -/
def lookup2 {V : Type} (discs : List (String × List (String × AgentDiscovery V)))
    (w k : String) : Option (AgentDiscovery V) :=
  (alookup discs w).bind fun ns => alookup ns k

/-- `k` is absent from every worker's namespace. -/
def keyAbsent {V : Type} (discs : List (String × List (String × AgentDiscovery V)))
    (k : String) : Prop :=
  ∀ p ∈ discs, alookup p.2 k = none

theorem lookup2_record_discovery_self {V : Type} (doc : Document V)
    (d : AgentDiscovery V) (now : String) :
    lookup2 ((record_discovery doc d now).2).discoveries d.agent_id d.key = some d := by
  rw [record_discovery_discoveries]
  unfold lookup2
  rw [alookup_setIn_self]
  simp [alookup_setIn_self]

theorem lookup2_record_discovery_ne {V : Type} (doc : Document V)
    (d : AgentDiscovery V) (now : String) (w k : String) (hk : k ≠ d.key) :
    lookup2 ((record_discovery doc d now).2).discoveries w k =
      lookup2 doc.discoveries w k := by
  rw [record_discovery_discoveries]
  unfold lookup2
  by_cases hw : w = d.agent_id
  · subst hw
    rw [alookup_setIn_self]
    simp only [Option.some_bind]
    rw [alookup_setIn_ne _ _ _ _ hk]
    cases h : alookup doc.discoveries d.agent_id with
    | some ns => simp [h]
    | none => simp [h, alookup]
  · rw [alookup_setIn_ne _ _ _ _ hw, alookup_setdefault_ne _ _ _ _ hw]

theorem keyAbsent_record_discovery {V : Type} (doc : Document V)
    (d : AgentDiscovery V) (now : String) (k : String) (hk : k ≠ d.key)
    (h : keyAbsent doc.discoveries k) :
    keyAbsent ((record_discovery doc d now).2).discoveries k := by
  rw [record_discovery_discoveries]
  intro p hp
  rcases mem_setIn _ _ _ _ hp with hp' | hp'
  · rcases mem_setdefault _ _ _ _ hp' with hp'' | hp''
    · exact h p hp''
    · rw [hp'']
      simp [alookup]
  · rw [hp']
    show alookup (setIn ((alookup doc.discoveries d.agent_id).getD []) d.key d) k = none
    rw [alookup_setIn_ne _ _ _ _ hk]
    cases hns : alookup doc.discoveries d.agent_id with
    | some ns => simpa using h (d.agent_id, ns) (alookup_mem _ _ _ hns)
    | none => simp [alookup]

theorem record_discovery_fst_of_absent {V : Type} (doc : Document V)
    (d : AgentDiscovery V) (now : String)
    (h : ∀ p ∈ doc.discoveries, p.1 ≠ d.agent_id → alookup p.2 d.key = none) :
    (record_discovery doc d now).1 = true := by
  rw [record_discovery_fst, (conflictsFor_eq_nil_iff _ _ _).mpr h]
  rfl

/-! ### Counting lemmas for `total_discoveries` -/

theorem sum_discovery_counts_setdefault {V : Type}
    (m : List (String × List (String × AgentDiscovery V))) (k : String) :
    sum_discovery_counts (setdefault m k []) = sum_discovery_counts m := by
  unfold setdefault
  cases h : alookup m k with
  | some w => rfl
  | none => unfold sum_discovery_counts; simp

theorem sum_discovery_counts_setIn {V : Type}
    (m : List (String × List (String × AgentDiscovery V))) (k : String)
    (v old : List (String × AgentDiscovery V)) (h : alookup m k = some old) :
    sum_discovery_counts (setIn m k v) + old.length =
      sum_discovery_counts m + v.length := by
  induction m with
  | nil => simp [alookup] at h
  | cons p rest ih =>
      obtain ⟨a, b⟩ := p
      by_cases ha : a = k
      · subst ha
        simp [alookup] at h
        subst h
        simp only [setIn, if_pos rfl]
        simp [sum_discovery_counts]
        omega
      · simp [alookup, ha] at h
        have := ih h
        simp only [setIn, if_neg ha]
        simp [sum_discovery_counts] at this ⊢
        omega

theorem sum_record_discovery_fresh {V : Type} (doc : Document V)
    (d : AgentDiscovery V) (now : String) (h : keyAbsent doc.discoveries d.key) :
    sum_discovery_counts ((record_discovery doc d now).2).discoveries =
      sum_discovery_counts doc.discoveries + 1 := by
  rw [record_discovery_discoveries]
  have habs : alookup ((alookup doc.discoveries d.agent_id).getD []) d.key = none := by
    cases hns : alookup doc.discoveries d.agent_id with
    | some ns => simpa using h (d.agent_id, ns) (alookup_mem _ _ _ hns)
    | none => simp [alookup]
  have hlen : (setIn ((alookup doc.discoveries d.agent_id).getD []) d.key d).length =
      ((alookup doc.discoveries d.agent_id).getD []).length + 1 := by
    rw [length_setIn, habs]
  have hsum := sum_discovery_counts_setIn (setdefault doc.discoveries d.agent_id [])
    d.agent_id (setIn ((alookup doc.discoveries d.agent_id).getD []) d.key d)
    ((alookup doc.discoveries d.agent_id).getD []) (alookup_setdefault_self _ _ _)
  rw [sum_discovery_counts_setdefault, hlen] at hsum
  omega

/-! ### Namespaces keep their keys duplicate-free -/

/-- Every worker namespace in `discs` has duplicate-free keys (true of any
Python dict, maintained here as an invariant of the association lists). -/
def nodupInner {V : Type}
    (discs : List (String × List (String × AgentDiscovery V))) : Prop :=
  ∀ p ∈ discs, (p.2.map Prod.fst).Nodup

theorem nodupInner_record_discovery {V : Type} (doc : Document V)
    (d : AgentDiscovery V) (now : String) (h : nodupInner doc.discoveries) :
    nodupInner ((record_discovery doc d now).2).discoveries := by
  rw [record_discovery_discoveries]
  intro p hp
  rcases mem_setIn _ _ _ _ hp with hp' | hp'
  · rcases mem_setdefault _ _ _ _ hp' with hp'' | hp''
    · exact h p hp''
    · rw [hp'']
      simp
  · rw [hp']
    apply nodup_keys_setIn
    cases hns : alookup doc.discoveries d.agent_id with
    | some ns => simpa using h (d.agent_id, ns) (alookup_mem _ _ _ hns)
    | none => simp

/-! ### Unfolding lemmas for the operation sequences -/

theorem run_cons {V : Type} (doc : Document V) (op : Op V) (ops : List (Op V)) :
    run doc (op :: ops) = run (applyOp doc op) ops := rfl

theorem runDiscoveries_cons_snd {V : Type} (doc : Document V)
    (c : AgentDiscovery V × String) (rest : List (AgentDiscovery V × String)) :
    (runDiscoveries doc (c :: rest)).2 =
      (runDiscoveries (record_discovery doc c.1 c.2).2 rest).2 := rfl

theorem runDiscoveries_cons_fst {V : Type} (doc : Document V)
    (c : AgentDiscovery V × String) (rest : List (AgentDiscovery V × String)) :
    (runDiscoveries doc (c :: rest)).1 =
      (record_discovery doc c.1 c.2).1 ::
        (runDiscoveries (record_discovery doc c.1 c.2).2 rest).1 := rfl

theorem record_decision_decisions {V : Type} (doc : Document V) (k : String)
    (p : V) (b now : String) :
    (record_decision doc k p b now).decisions =
      setIn doc.decisions k { decision := p, decided_by := b, timestamp := now } := rfl

/-! ### Checkpoint metadata never enters the live document -/

theorem run_ckpt_fields {V : Type} (doc : Document V) (ops : List (Op V)) :
    (run doc ops).metadata.checkpoint_name = doc.metadata.checkpoint_name ∧
      (run doc ops).metadata.checkpoint_time = doc.metadata.checkpoint_time := by
  induction ops generalizing doc with
  | nil => exact ⟨rfl, rfl⟩
  | cons op rest ih =>
      rw [run_cons]
      have h := ih (applyOp doc op)
      cases op with
      | disc d now => exact ⟨h.1, h.2⟩
      | dec k p b now => exact ⟨h.1, h.2⟩

/-! ### Decision keys -/

theorem keys_setIn_subset {α : Type} (m : List (String × α)) (k : String) (v : α) :
    ((setIn m k v).map Prod.fst) ⊆ m.map Prod.fst ++ [k] := by
  rw [keys_setIn]
  split
  · exact List.subset_append_left _ _
  · exact List.Subset.refl _

theorem run_decisions_keys_subset {V : Type} (doc : Document V) (ops : List (Op V)) :
    ∀ x ∈ (run doc ops).decisions.map Prod.fst,
      x ∈ doc.decisions.map Prod.fst ∨ x ∈ decisionKeys ops := by
  induction ops generalizing doc with
  | nil => exact fun x hx => Or.inl hx
  | cons op rest ih =>
      intro x hx
      rw [run_cons] at hx
      cases op with
      | disc d now =>
          rcases ih _ x hx with h1 | h2
          · rw [show (applyOp doc (Op.disc d now)).decisions = doc.decisions from rfl] at h1
            exact Or.inl h1
          · exact Or.inr h2
      | dec k p b now =>
          rcases ih _ x hx with h1 | h2
          · rw [show (applyOp doc (Op.dec k p b now)).decisions =
                setIn doc.decisions k
                  { decision := p, decided_by := b, timestamp := now } from rfl] at h1
            have := keys_setIn_subset doc.decisions k _ h1
            rcases List.mem_append.mp this with h3 | h4
            · exact Or.inl h3
            · right
              show x ∈ k :: decisionKeys rest
              exact List.mem_cons.mpr (Or.inl (List.mem_singleton.mp h4))
          · right
            show x ∈ k :: decisionKeys rest
            exact List.mem_cons.mpr (Or.inr h2)

theorem run_decisions_keys_nodup {V : Type} (doc : Document V) (ops : List (Op V))
    (h : (doc.decisions.map Prod.fst).Nodup) :
    ((run doc ops).decisions.map Prod.fst).Nodup := by
  induction ops generalizing doc with
  | nil => exact h
  | cons op rest ih =>
      rw [run_cons]
      apply ih
      cases op with
      | disc d now => exact h
      | dec k p b now => exact nodup_keys_setIn _ _ _ h

theorem nodup_subset_length_le_dedup (l l' : List String) (h : l.Nodup)
    (hs : ∀ x ∈ l, x ∈ l') : l.length ≤ l'.dedup.length := by
  have h1 : l.toFinset.card = l.length := List.toFinset_card_of_nodup h
  have h2 : l.toFinset ⊆ l'.toFinset := by
    intro x hx
    rw [List.mem_toFinset] at hx ⊢
    exact hs x hx
  have h3 : l'.toFinset.card = l'.dedup.length := List.card_toFinset l'
  calc l.length = l.toFinset.card := h1.symm
    _ ≤ l'.toFinset.card := Finset.card_le_card h2
    _ = l'.dedup.length := h3

/-! ### Distinct-key count per namespace -/

/-- The sum, over all worker namespaces, of the number of distinct keys in
that namespace. -/
def distinct_key_total {V : Type}
    (discs : List (String × List (String × AgentDiscovery V))) : Nat :=
  (discs.map fun p => ((p.2.map Prod.fst).dedup).length).sum

theorem distinct_key_total_eq {V : Type}
    (discs : List (String × List (String × AgentDiscovery V)))
    (h : nodupInner discs) :
    distinct_key_total discs = sum_discovery_counts discs := by
  unfold distinct_key_total sum_discovery_counts
  apply congrArg
  apply List.map_congr_left
  intro p hp
  rw [List.Nodup.dedup (h p hp)]
  simp

/-! ### The `total_discoveries` invariant along a call sequence -/

theorem runDiscoveries_total_invariant {V : Type} (doc : Document V)
    (calls : List (AgentDiscovery V × String))
    (hnd : nodupInner doc.discoveries)
    (htot : doc.metadata.total_discoveries.getD 0 =
      sum_discovery_counts doc.discoveries) :
    nodupInner ((runDiscoveries doc calls).2).discoveries ∧
      ((runDiscoveries doc calls).2).metadata.total_discoveries.getD 0 =
        sum_discovery_counts ((runDiscoveries doc calls).2).discoveries ∧
      (calls ≠ [] → ((runDiscoveries doc calls).2).metadata.total_discoveries =
        some (sum_discovery_counts ((runDiscoveries doc calls).2).discoveries)) := by
  induction calls generalizing doc with
  | nil => exact ⟨hnd, htot, fun h => absurd rfl h⟩
  | cons c rest ih =>
      have hnd' := nodupInner_record_discovery doc c.1 c.2 hnd
      have htot' : ((record_discovery doc c.1 c.2).2).metadata.total_discoveries.getD 0
          = sum_discovery_counts ((record_discovery doc c.1 c.2).2).discoveries := by
        rw [record_discovery_total]
        rfl
      have h := ih ((record_discovery doc c.1 c.2).2) hnd' htot'
      refine ⟨h.1, h.2.1, fun _ => ?_⟩
      cases rest with
      | nil =>
          rw [show (runDiscoveries doc [c]).2 = (record_discovery doc c.1 c.2).2 from rfl]
          exact record_discovery_total doc c.1 c.2
      | cons c' rest' => exact h.2.2 (List.cons_ne_nil c' rest')

/-! ### Runs over pairwise-fresh keys -/

theorem lookup2_runDiscoveries_ne {V : Type} (doc : Document V)
    (calls : List (AgentDiscovery V × String)) (w k : String)
    (hk : ∀ c ∈ calls, k ≠ c.1.key) :
    lookup2 ((runDiscoveries doc calls).2).discoveries w k =
      lookup2 doc.discoveries w k := by
  induction calls generalizing doc with
  | nil => rfl
  | cons c rest ih =>
      rw [runDiscoveries_cons_snd,
        ih _ (fun c' hc' => hk c' (List.mem_cons_of_mem _ hc')),
        lookup2_record_discovery_ne _ _ _ _ _ (hk c (List.mem_cons_self _ _))]

theorem runDiscoveries_fresh {V : Type} (doc : Document V)
    (calls : List (AgentDiscovery V × String))
    (hfresh : ∀ c ∈ calls, keyAbsent doc.discoveries c.1.key)
    (hnd : (calls.map fun c => c.1.key).Nodup) :
    (∀ b ∈ (runDiscoveries doc calls).1, b = true) ∧
      (∀ c ∈ calls,
        lookup2 ((runDiscoveries doc calls).2).discoveries c.1.agent_id c.1.key =
          some c.1) ∧
      sum_discovery_counts ((runDiscoveries doc calls).2).discoveries =
        sum_discovery_counts doc.discoveries + calls.length := by
  induction calls generalizing doc with
  | nil =>
      refine ⟨?_, ?_, ?_⟩
      · intro b hb
        simp [runDiscoveries] at hb
      · intro c hc
        simp at hc
      · simp [runDiscoveries]
  | cons c rest ih =>
      have habs : keyAbsent doc.discoveries c.1.key := hfresh c (List.mem_cons_self _ _)
      have hres : (record_discovery doc c.1 c.2).1 = true :=
        record_discovery_fst_of_absent _ _ _ (fun p hp _ => habs p hp)
      rw [List.map_cons] at hnd
      have hhead : c.1.key ∉ rest.map fun c' => c'.1.key :=
        (List.nodup_cons.mp hnd).1
      have hfresh' : ∀ c' ∈ rest,
          keyAbsent ((record_discovery doc c.1 c.2).2).discoveries c'.1.key := by
        intro c' hc'
        apply keyAbsent_record_discovery
        · intro heq
          exact hhead (heq ▸ List.mem_map.mpr ⟨c', hc', rfl⟩)
        · exact hfresh c' (List.mem_cons_of_mem _ hc')
      have hnd' : (rest.map fun c' => c'.1.key).Nodup :=
        (List.nodup_cons.mp hnd).2
      have h := ih ((record_discovery doc c.1 c.2).2) hfresh' hnd'
      refine ⟨?_, ?_, ?_⟩
      · intro b hb
        rw [runDiscoveries_cons_fst] at hb
        rcases List.mem_cons.mp hb with h1 | h2
        · rw [h1]
          exact hres
        · exact h.1 b h2
      · intro c' hc'
        rcases List.mem_cons.mp hc' with h1 | h2
        · subst h1
          rw [runDiscoveries_cons_snd]
          rw [lookup2_runDiscoveries_ne _ rest c'.1.agent_id c'.1.key
            (fun c'' hc'' heq => hhead (heq ▸ List.mem_map.mpr ⟨c'', hc'', rfl⟩))]
          exact lookup2_record_discovery_self doc c'.1 c'.2
        · exact h.2.1 c' h2
      · rw [runDiscoveries_cons_snd, h.2.2,
          sum_record_discovery_fresh doc c.1 c.2 habs]
        simp only [List.length_cons]
        omega

/-! ### Concrete data for witnesses and counterexamples -/

/-- Worker `A`'s discovery of key `"k"` with value `"v"`. -/
def discA : AgentDiscovery String :=
  { agent_id := "A", key := "k", value := "v", timestamp := "t0"
  , confidence := 1, tags := [] }

/-- Worker `B`'s discovery of the same key `"k"` with the same value `"v"`. -/
def discB : AgentDiscovery String :=
  { agent_id := "B", key := "k", value := "v", timestamp := "t1"
  , confidence := 1, tags := [] }

/-- Worker `B`'s discovery of a different key `"k2"`. -/
def discB2 : AgentDiscovery String :=
  { agent_id := "B", key := "k2", value := "w", timestamp := "t1"
  , confidence := 1, tags := [] }

/-- A store document in which worker `A` already holds key `"k"`. -/
def docAB : Document String :=
  { discoveries := [("A", [("k", discA)])]
  , conflicts := []
  , decisions := []
  , metadata :=
      { created := "t0", version := "1.0", last_updated := none
      , total_discoveries := none, checkpoint_name := none
      , checkpoint_time := none } }

/-! ### The claims -/

/-- C1: `record_discovery(discovery)` returns true if and only if, at call
time, `discovery.key` was absent from every other worker's namespace in the
document; for a key never before seen by any worker it returns true and
appends zero conflict entries. -/
theorem C1_record_discovery_novel_iff {V : Type} (doc : Document V)
    (d : AgentDiscovery V) (now : String) :
    ((record_discovery doc d now).1 = true ↔
      ∀ p ∈ doc.discoveries, p.1 ≠ d.agent_id → alookup p.2 d.key = none) ∧
    ((∀ p ∈ doc.discoveries, alookup p.2 d.key = none) →
      (record_discovery doc d now).1 = true ∧
        ((record_discovery doc d now).2).conflicts = doc.conflicts) := by
  constructor
  · rw [record_discovery_fst, List.isEmpty_iff]
    exact conflictsFor_eq_nil_iff doc.discoveries d now
  · intro h
    have hnil : conflictsFor doc.discoveries d now = [] :=
      (conflictsFor_eq_nil_iff _ _ _).mpr (fun p hp _ => h p hp)
    constructor
    · rw [record_discovery_fst, hnil]
      rfl
    · rw [record_discovery_conflicts, hnil, List.append_nil]

/-- Witness for C1, at a fresh document and a never-seen key. -/
theorem C1_witness :
    (((record_discovery (initial_memory String "t0") discA "t1").1 = true ↔
      ∀ p ∈ (initial_memory String "t0").discoveries, p.1 ≠ discA.agent_id →
        alookup p.2 discA.key = none) ∧
    ((record_discovery (initial_memory String "t0") discA "t1").1 = true ∧
      ((record_discovery (initial_memory String "t0") discA "t1").2).conflicts =
        (initial_memory String "t0").conflicts)) :=
  ⟨(C1_record_discovery_novel_iff (initial_memory String "t0") discA "t1").1,
   (C1_record_discovery_novel_iff (initial_memory String "t0") discA "t1").2
     (fun p hp => absurd hp (List.not_mem_nil p))⟩

/-- C2: when `discovery.key` is already present under exactly `N ≥ 1` other
distinct workers' namespaces, one `record_discovery` call returns false and
appends exactly `N` conflict entries, each carrying the key, the worker ids
in `[new, existing]` order and the values in `[new, existing]` order. -/
theorem C2_record_discovery_conflict_entries {V : Type} (doc : Document V)
    (d : AgentDiscovery V) (now : String) (N : Nat)
    (_hdistinct : (doc.discoveries.map Prod.fst).Nodup)
    (hN : (doc.discoveries.filter fun p =>
      !(decide (p.1 = d.agent_id)) && (alookup p.2 d.key).isSome).length = N)
    (hpos : 1 ≤ N) :
    (record_discovery doc d now).1 = false ∧
    ((record_discovery doc d now).2).conflicts =
      doc.conflicts ++ conflictsFor doc.discoveries d now ∧
    (conflictsFor doc.discoveries d now).length = N ∧
    (∀ c ∈ conflictsFor doc.discoveries d now,
      ∃ p ∈ doc.discoveries, p.1 ≠ d.agent_id ∧ ∃ ex, alookup p.2 d.key = some ex ∧
        c = { key := d.key, agents := [d.agent_id, p.1]
            , values := [d.value, ex.value], timestamp := now }) ∧
    (∀ p ∈ doc.discoveries, p.1 ≠ d.agent_id → ∀ ex, alookup p.2 d.key = some ex →
      ({ key := d.key, agents := [d.agent_id, p.1]
       , values := [d.value, ex.value], timestamp := now } : Conflict V) ∈
        conflictsFor doc.discoveries d now) := by
  have hlen : (conflictsFor doc.discoveries d now).length = N := by
    rw [length_conflictsFor, hN]
  refine ⟨?_, record_discovery_conflicts doc d now, hlen, ?_, ?_⟩
  · rw [record_discovery_fst]
    cases hc : conflictsFor doc.discoveries d now with
    | nil => rw [hc] at hlen; simp at hlen; omega
    | cons x xs => rfl
  · intro c hc
    exact (mem_conflictsFor _ _ _ _).mp hc
  · intro p hp hne ex hex
    exact (mem_conflictsFor _ _ _ _).mpr ⟨p, hp, hne, ex, hex, rfl⟩

/-- Witness for C2: worker `B` records key `"k"` already held by the single
other worker `A`, producing exactly one conflict entry. -/
theorem C2_witness :
    ((1 : Nat) ≤ 1) ∧
    ((record_discovery docAB discB "t2").1 = false ∧
    ((record_discovery docAB discB "t2").2).conflicts =
      docAB.conflicts ++ conflictsFor docAB.discoveries discB "t2" ∧
    (conflictsFor docAB.discoveries discB "t2").length = 1 ∧
    (∀ c ∈ conflictsFor docAB.discoveries discB "t2",
      ∃ p ∈ docAB.discoveries, p.1 ≠ discB.agent_id ∧
        ∃ ex, alookup p.2 discB.key = some ex ∧
          c = { key := discB.key, agents := [discB.agent_id, p.1]
              , values := [discB.value, ex.value], timestamp := "t2" }) ∧
    (∀ p ∈ docAB.discoveries, p.1 ≠ discB.agent_id →
      ∀ ex, alookup p.2 discB.key = some ex →
        ({ key := discB.key, agents := [discB.agent_id, p.1]
         , values := [discB.value, ex.value], timestamp := "t2" } : Conflict String) ∈
          conflictsFor docAB.discoveries discB "t2")) :=
  ⟨le_refl 1,
   C2_record_discovery_conflict_entries docAB discB "t2" 1 (by decide) (by decide)
     (le_refl 1)⟩

/-- C3 counterexample: worker `A` already holds key `"k"` with value `"v"`;
worker `B` records the same key with the *equal* value `"v"`, yet a conflict
entry is still appended (the code never compares values). -/
theorem C3_counterexample :
    discB.value = discA.value ∧
    alookup docAB.discoveries "A" = some [("k", discA)] ∧
    discB.agent_id ≠ "A" ∧
    docAB.conflicts = [] ∧
    ((record_discovery docAB discB "t2").2).conflicts =
      [{ key := "k", agents := ["B", "A"], values := ["v", "v"]
       , timestamp := "t2" }] := by
  refine ⟨rfl, rfl, ?_, rfl, rfl⟩
  decide

/-- C3 amended: `record_discovery` appends a conflict entry for every other
worker whose namespace holds `discovery.key`, regardless of whether the held
value equals `discovery.value` (no value comparison is performed). -/
theorem C3_amended_conflict_regardless_of_value {V : Type} (doc : Document V)
    (d : AgentDiscovery V) (now : String) :
    ∀ p ∈ doc.discoveries, p.1 ≠ d.agent_id → ∀ ex, alookup p.2 d.key = some ex →
      ({ key := d.key, agents := [d.agent_id, p.1], values := [d.value, ex.value]
       , timestamp := now } : Conflict V) ∈ ((record_discovery doc d now).2).conflicts := by
  intro p hp hne ex hex
  rw [record_discovery_conflicts]
  exact List.mem_append.mpr (Or.inr ((mem_conflictsFor _ _ _ _).mpr ⟨p, hp, hne, ex, hex, rfl⟩))

/-- Witness for the amended C3: the equal-valued collision of
`C3_counterexample` indeed lands in the conflict log. -/
theorem C3_witness :
    ({ key := "k", agents := ["B", "A"], values := ["v", "v"]
     , timestamp := "t2" } : Conflict String) ∈
      ((record_discovery docAB discB "t2").2).conflicts :=
  C3_amended_conflict_regardless_of_value docAB discB "t2" ("A", [("k", discA)])
    (by simp [docAB]) (by decide) discA rfl

/-- C4: after any finite sequence of `record_discovery` calls starting from a
freshly initialized document, `metadata.total_discoveries` equals the sum,
over all worker namespaces, of the number of distinct keys in that namespace
(read with default `0`; the field is materialized by the first call). -/
theorem C4_total_discoveries_invariant {V : Type} (created : String)
    (calls : List (AgentDiscovery V × String)) :
    ((runDiscoveries (initial_memory V created) calls).2).metadata.total_discoveries.getD 0 =
      distinct_key_total ((runDiscoveries (initial_memory V created) calls).2).discoveries ∧
    (calls ≠ [] →
      ((runDiscoveries (initial_memory V created) calls).2).metadata.total_discoveries =
        some (distinct_key_total
          ((runDiscoveries (initial_memory V created) calls).2).discoveries)) := by
  have h := runDiscoveries_total_invariant (initial_memory V created) calls
    (fun p hp => absurd hp (List.not_mem_nil p)) rfl
  rw [distinct_key_total_eq _ h.1]
  exact ⟨h.2.1, h.2.2⟩

/-- Witness for C4 at a two-call sequence. -/
theorem C4_witness :
    (((runDiscoveries (initial_memory String "t0")
        [(discA, "t1"), (discB2, "t2")]).2).metadata.total_discoveries.getD 0 =
      distinct_key_total ((runDiscoveries (initial_memory String "t0")
        [(discA, "t1"), (discB2, "t2")]).2).discoveries) ∧
    (((runDiscoveries (initial_memory String "t0")
        [(discA, "t1"), (discB2, "t2")]).2).metadata.total_discoveries =
      some (distinct_key_total ((runDiscoveries (initial_memory String "t0")
        [(discA, "t1"), (discB2, "t2")]).2).discoveries)) :=
  ⟨(C4_total_discoveries_invariant "t0" [(discA, "t1"), (discB2, "t2")]).1,
   (C4_total_discoveries_invariant "t0" [(discA, "t1"), (discB2, "t2")]).2
     (List.cons_ne_nil _ _)⟩

/-- C5: `checkpoint(name)` leaves the live document unchanged (in particular
no `checkpoint_name`/`checkpoint_time` appears in the live metadata, which
never carries them on any document reachable from initialization), while the
checkpoint file it writes at the returned path holds the full document with
`checkpoint_name` and `checkpoint_time` stamped into its metadata. -/
theorem C5_checkpoint_frame {V : Type} (disk : Disk V) (name now : String)
    (unix_time : Nat)
    (h1 : disk.live.metadata.checkpoint_name = none)
    (h2 : disk.live.metadata.checkpoint_time = none) :
    ((checkpoint disk name now unix_time).2.live = disk.live) ∧
    ((checkpoint disk name now unix_time).2.live.metadata.checkpoint_name = none) ∧
    ((checkpoint disk name now unix_time).2.live.metadata.checkpoint_time = none) ∧
    ((checkpoint disk name now unix_time).2.files =
      disk.files ++
        [((checkpoint disk name now unix_time).1, ckpt_stamp disk.live name now)]) ∧
    (ckpt_stamp disk.live name now).discoveries = disk.live.discoveries ∧
    (ckpt_stamp disk.live name now).conflicts = disk.live.conflicts ∧
    (ckpt_stamp disk.live name now).decisions = disk.live.decisions ∧
    (ckpt_stamp disk.live name now).metadata.checkpoint_name = some name ∧
    (ckpt_stamp disk.live name now).metadata.checkpoint_time = some now ∧
    (ckpt_stamp disk.live name now).metadata.created = disk.live.metadata.created ∧
    (ckpt_stamp disk.live name now).metadata.last_updated =
      disk.live.metadata.last_updated ∧
    (ckpt_stamp disk.live name now).metadata.total_discoveries =
      disk.live.metadata.total_discoveries ∧
    (∀ (created : String) (ops : List (Op V)),
      (run (initial_memory V created) ops).metadata.checkpoint_name = none ∧
        (run (initial_memory V created) ops).metadata.checkpoint_time = none) :=
  ⟨rfl, h1, h2, rfl, rfl, rfl, rfl, rfl, rfl, rfl, rfl, rfl,
   fun created ops => run_ckpt_fields (initial_memory V created) ops⟩

/-- Witness for C5 at a concrete disk whose live document is freshly
initialized. -/
theorem C5_witness :
    ((checkpoint (Disk.mk (initial_memory String "t0") []) "snap" "t9" 42).2.live =
      initial_memory String "t0") ∧
    ((checkpoint (Disk.mk (initial_memory String "t0") []) "snap" "t9"
        42).2.live.metadata.checkpoint_name = none) ∧
    ((checkpoint (Disk.mk (initial_memory String "t0") []) "snap" "t9"
        42).2.live.metadata.checkpoint_time = none) ∧
    ((checkpoint (Disk.mk (initial_memory String "t0") []) "snap" "t9" 42).2.files =
      [] ++ [((checkpoint (Disk.mk (initial_memory String "t0") []) "snap" "t9" 42).1,
        ckpt_stamp (initial_memory String "t0") "snap" "t9")]) ∧
    (ckpt_stamp (initial_memory String "t0") "snap" "t9").discoveries =
      (initial_memory String "t0").discoveries ∧
    (ckpt_stamp (initial_memory String "t0") "snap" "t9").conflicts =
      (initial_memory String "t0").conflicts ∧
    (ckpt_stamp (initial_memory String "t0") "snap" "t9").decisions =
      (initial_memory String "t0").decisions ∧
    (ckpt_stamp (initial_memory String "t0") "snap" "t9").metadata.checkpoint_name =
      some "snap" ∧
    (ckpt_stamp (initial_memory String "t0") "snap" "t9").metadata.checkpoint_time =
      some "t9" ∧
    (ckpt_stamp (initial_memory String "t0") "snap" "t9").metadata.created =
      (initial_memory String "t0").metadata.created ∧
    (ckpt_stamp (initial_memory String "t0") "snap" "t9").metadata.last_updated =
      (initial_memory String "t0").metadata.last_updated ∧
    (ckpt_stamp (initial_memory String "t0") "snap" "t9").metadata.total_discoveries =
      (initial_memory String "t0").metadata.total_discoveries ∧
    (∀ (created : String) (ops : List (Op String)),
      (run (initial_memory String created) ops).metadata.checkpoint_name = none ∧
        (run (initial_memory String created) ops).metadata.checkpoint_time = none) :=
  C5_checkpoint_frame (Disk.mk (initial_memory String "t0") []) "snap" "t9" 42 rfl rfl

/-- C6: initialization is idempotent — initializing a fresh path twice yields
the same document as initializing it once, and initializing an
already-initialized path is a no-op. -/
theorem C6_init_idempotent (V : Type) :
    (∀ t t' : String,
      init_memory V (some (init_memory V none t)) t' = init_memory V none t) ∧
    (∀ (doc : Document V) (t' : String), init_memory V (some doc) t' = doc) :=
  ⟨fun _ _ => rfl, fun _ _ => rfl⟩

/-- C7: at most one decision is retained per key — a second `record_decision`
with the same key overwrites the first entirely, and
`get_agent_summary().total_decisions` never exceeds the number of distinct
keys ever passed to `record_decision`. -/
theorem C7_decision_overwrite_and_bound (V : Type) :
    (∀ (doc : Document V) (k : String) (p1 : V) (b1 t1 : String) (p2 : V)
        (b2 t2 : String),
      alookup (record_decision (record_decision doc k p1 b1 t1) k p2 b2 t2).decisions
        k = some { decision := p2, decided_by := b2, timestamp := t2 }) ∧
    (∀ (created : String) (ops : List (Op V)),
      (get_agent_summary (run (initial_memory V created) ops)).total_decisions ≤
        (decisionKeys ops).dedup.length) := by
  constructor
  · intro doc k p1 b1 t1 p2 b2 t2
    rw [record_decision_decisions, alookup_setIn_self]
  · intro created ops
    have hnodup := run_decisions_keys_nodup (initial_memory V created) ops
      (by simp [initial_memory])
    have hsub := run_decisions_keys_subset (initial_memory V created) ops
    show (run (initial_memory V created) ops).decisions.length ≤ _
    rw [← List.length_map ((run (initial_memory V created) ops).decisions) Prod.fst]
    apply nodup_subset_length_le_dedup _ _ hnodup
    intro x hx
    rcases hsub x hx with h1 | h2
    · simp [initial_memory] at h1
    · exact h2

/-- C8 counterexample: the two calls use two distinct `(worker, key)` pairs —
`("A","k")` and `("B","k")` — yet under either serialization of the two
lock-protected calls one of them returns false, refuting "all N calls return
true". -/
theorem C8_counterexample :
    (discA.agent_id, discA.key) ≠ (discB.agent_id, discB.key) ∧
    ¬ (∀ b ∈ (runDiscoveries (initial_memory String "t0")
        [(discA, "t1"), (discB, "t2")]).1, b = true) ∧
    ¬ (∀ b ∈ (runDiscoveries (initial_memory String "t0")
        [(discB, "t1"), (discA, "t2")]).1, b = true) := by
  refine ⟨by decide, ?_, ?_⟩ <;> decide

/-- C8 amended: when the N concurrently issued `record_discovery` calls use N
distinct `(worker, key)` pairs with pairwise-distinct keys, then under every
serialization the per-path exclusive lock admits, all N calls return true and
the final document contains all N discoveries with
`metadata.total_discoveries` equal to N. -/
theorem C8_amended_distinct_keys {V : Type} (created : String)
    (calls : List (AgentDiscovery V × String))
    (hnd : (calls.map fun c => c.1.key).Nodup) :
    (∀ b ∈ (runDiscoveries (initial_memory V created) calls).1, b = true) ∧
    (∀ c ∈ calls,
      lookup2 ((runDiscoveries (initial_memory V created) calls).2).discoveries
        c.1.agent_id c.1.key = some c.1) ∧
    ((runDiscoveries (initial_memory V created) calls).2).metadata.total_discoveries.getD 0 =
      calls.length := by
  have h := runDiscoveries_fresh (initial_memory V created) calls
    (fun c hc p hp => absurd hp (List.not_mem_nil p)) hnd
  refine ⟨h.1, h.2.1, ?_⟩
  have ht := runDiscoveries_total_invariant (initial_memory V created) calls
    (fun p hp => absurd hp (List.not_mem_nil p)) rfl
  rw [ht.2.1, h.2.2]
  simp [initial_memory, sum_discovery_counts]

/-- Witness for the amended C8 at two calls with distinct keys. -/
theorem C8_witness :
    (∀ b ∈ (runDiscoveries (initial_memory String "t0")
        [(discA, "t1"), (discB2, "t2")]).1, b = true) ∧
    (∀ c ∈ [(discA, "t1"), (discB2, "t2")],
      lookup2 ((runDiscoveries (initial_memory String "t0")
          [(discA, "t1"), (discB2, "t2")]).2).discoveries
        c.1.agent_id c.1.key = some c.1) ∧
    ((runDiscoveries (initial_memory String "t0")
        [(discA, "t1"), (discB2, "t2")]).2).metadata.total_discoveries.getD 0 = 2 :=
  C8_amended_distinct_keys "t0" [(discA, "t1"), (discB2, "t2")] (by decide)

/-- C9: `get_shared_knowledge("")` returns the entire document, not the
empty-string worker's mapping — the per-worker filter applies only to
non-empty worker ids — while a non-empty worker id with no recorded
discoveries yields an empty mapping. -/
theorem C9_get_shared_knowledge_empty_id (V : Type) :
    (∀ doc : Document V, get_shared_knowledge doc (some "") = Sum.inl doc) ∧
    (∀ (doc : Document V) (a : String), a ≠ "" → alookup doc.discoveries a = none →
      get_shared_knowledge doc (some a) = Sum.inr []) := by
  constructor
  · intro doc
    rfl
  · intro doc a ha hn
    simp [get_shared_knowledge, ha, hn]

/-- Witness for C9 at a concrete document and the absent worker `"B"`. -/
theorem C9_witness :
    (get_shared_knowledge docAB (some "") = Sum.inl docAB) ∧
    (get_shared_knowledge docAB (some "B") = Sum.inr []) :=
  ⟨(C9_get_shared_knowledge_empty_id String).1 docAB,
   (C9_get_shared_knowledge_empty_id String).2 docAB "B" (by decide) rfl⟩

/-- C10: `record_decision` changes only `decisions[key]`: discoveries,
conflicts, every other decision entry and the whole metadata object
(including `last_updated` and `total_discoveries`) are untouched. -/
theorem C10_record_decision_frame {V : Type} (doc : Document V) (k : String)
    (p : V) (b now : String) :
    (record_decision doc k p b now).discoveries = doc.discoveries ∧
    (record_decision doc k p b now).conflicts = doc.conflicts ∧
    (record_decision doc k p b now).metadata = doc.metadata ∧
    alookup (record_decision doc k p b now).decisions k =
      some { decision := p, decided_by := b, timestamp := now } ∧
    (∀ k', k' ≠ k → alookup (record_decision doc k p b now).decisions k' =
      alookup doc.decisions k') := by
  refine ⟨rfl, rfl, rfl, ?_, ?_⟩
  · rw [record_decision_decisions, alookup_setIn_self]
  · intro k' hk'
    rw [record_decision_decisions, alookup_setIn_ne _ _ _ _ hk']

/-- Witness for C10 at a concrete document and key. -/
theorem C10_witness :
    ((record_decision docAB "k" "use-v" "boss" "t3").discoveries =
      docAB.discoveries ∧
    (record_decision docAB "k" "use-v" "boss" "t3").conflicts = docAB.conflicts ∧
    (record_decision docAB "k" "use-v" "boss" "t3").metadata = docAB.metadata ∧
    alookup (record_decision docAB "k" "use-v" "boss" "t3").decisions "k" =
      some { decision := "use-v", decided_by := "boss", timestamp := "t3" } ∧
    (∀ k', k' ≠ "k" →
      alookup (record_decision docAB "k" "use-v" "boss" "t3").decisions k' =
        alookup docAB.decisions k')) :=
  C10_record_decision_frame docAB "k" "use-v" "boss" "t3"

end AgentMemory
